import Mathlib

/-!
Verification development for the usb.ids repository core: the registry
parser (`parseUsbIds`), the fingerprint and version model
(`generateContentHash`, `createVersionInfo`), the update policy
(`shouldUpdate`), the refresh pipeline (`fetchUsbIdsData`) and the query
engine (`filterVendors`, `filterDevices`, `searchInData`, `getDevice`,
`getDevices`).

The JavaScript/TypeScript sources are shallowly embedded:
strings are handled through their `List Char` character data, JS objects
(`{ [key: string]: V }`) become association lists in insertion order where
assigning an existing key replaces the value in place and a fresh key is
appended (exactly the observable `Object.values` / `Object.keys` order of
JS objects with string keys), machine integers become `Int`/`Nat`, and the
`Date.now()` wall clock as well as all filesystem/network effects become
explicit parameters and result fields.
-/

namespace UsbIds

/-! ## JS string primitives -/

/-- The character class of JavaScript's `\s` regex escape and of
`String.prototype.trim` (ECMAScript WhiteSpace ∪ LineTerminator). -/
def isJsWhitespace (c : Char) : Bool :=
  c.toNat = 0x20 || c.toNat = 0x09 || c.toNat = 0x0a || c.toNat = 0x0d ||
  c.toNat = 0x0b || c.toNat = 0x0c ||
  c.toNat = 0xa0 || c.toNat = 0x1680 ||
  (0x2000 <= c.toNat && c.toNat <= 0x200a) ||
  c.toNat = 0x2028 || c.toNat = 0x2029 || c.toNat = 0x202f || c.toNat = 0x205f ||
  c.toNat = 0x3000 || c.toNat = 0xfeff

/-- JavaScript `String.prototype.trim`: strip leading and trailing
whitespace. -/
def jsTrim (s : String) : String :=
  ⟨((s.data.dropWhile isJsWhitespace).reverse.dropWhile isJsWhitespace).reverse⟩

/-- JavaScript `String.prototype.toLowerCase`, restricted to the ASCII
range (the only case mapping exercised by hexadecimal ids; for other
characters the identity is taken). -/
def jsToLowerChar (c : Char) : Char :=
  if 65 ≤ c.toNat && c.toNat ≤ 90 then Char.ofNat (c.toNat + 32) else c

/-- `toLowerCase` on a whole string. -/
def toLowerStr (s : String) : String := ⟨s.data.map jsToLowerChar⟩

/-- JavaScript `String.prototype.includes`: substring containment
(the empty needle is contained in everything). -/
def jsIncludes (hay needle : String) : Bool := decide (needle.data <:+: hay.data)

/-- JavaScript `String.prototype.startsWith`. -/
def jsStartsWith (s pre : String) : Bool := decide (pre.data <+: s.data)

/-- Hexadecimal digit, case-insensitive: the character class `[0-9a-f]`
under the regex `i` flag. -/
def isHexDigitCI (c : Char) : Bool :=
  (48 ≤ c.toNat && c.toNat ≤ 57) || (97 ≤ c.toNat && c.toNat ≤ 102) ||
  (65 ≤ c.toNat && c.toNat ≤ 70)

/-- A character matched by `.` in a JavaScript regex without the `s` flag:
anything but a line terminator. -/
def isDotChar (c : Char) : Bool :=
  !(c = '\n' || c = '\r' || c.toNat = 0x2028 || c.toNat = 0x2029)

/-- The match `line.match(/^([0-9a-f]{4})\s(.+)$/i)` used for vendor
headers (on the whole line) and for device lines (on the line after its
leading tab): exactly four hex digits, one whitespace character, then a
non-empty free-text remainder containing no line terminator. Returns the
two capture groups. -/
def matchIdLine (l : List Char) : Option (List Char × List Char) :=
  match l with
  | c0 :: c1 :: c2 :: c3 :: s :: rest =>
    if isHexDigitCI c0 && isHexDigitCI c1 && isHexDigitCI c2 && isHexDigitCI c3
        && isJsWhitespace s && !rest.isEmpty && rest.all isDotChar then
      some ([c0, c1, c2, c3], rest)
    else none
  | _ => none

/-! ## JS objects as association lists -/

/-- JS object property assignment `m[k] = v`: replace in place when the
key exists, append otherwise (preserving JS string-key enumeration
order). -/
def jsSet {α : Type} (m : List (String × α)) (k : String) (v : α) :
    List (String × α) :=
  match m with
  | [] => [(k, v)]
  | (k', v') :: rest => if k' = k then (k, v) :: rest else (k', v') :: jsSet rest k v

/-- JS object property read `m[k]` (`none` plays the role of
`undefined`). -/
def jsGet {α : Type} (m : List (String × α)) (k : String) : Option α :=
  match m with
  | [] => none
  | (k', v) :: rest => if k' = k then some v else jsGet rest k

/-! ## Data model (`src/types.ts`) -/

/-- A device entry: `{ devid, devname }`. -/
structure UsbDevice where
  devid : String
  devname : String
deriving Repr, DecidableEq

/-- A vendor entry: `{ vendor, name, devices }`. -/
structure UsbVendor where
  vendor : String
  name : String
  devices : List (String × UsbDevice)
deriving Repr, DecidableEq

/-- The dataset: a JS object mapping vendor id to vendor entry. -/
abbrev UsbIdsData := List (String × UsbVendor)

/-! ## Registry parser (`src/parser.ts`, `parseUsbIds`) -/

/-- `content.split('\n')`: split at every newline, keeping empty pieces
(one more piece than there are newlines). -/
def splitOnNl : List Char → List (List Char)
  | [] => [[]]
  | c :: rest =>
    match splitOnNl rest, c with
    | r :: rs, '\n' => [] :: r :: rs
    | r :: rs, c => (c :: r) :: rs
    | [], _ => [[]]

/-- The parser's loop state: the object built so far and the active
vendor id (`currentVendor`). -/
structure ParseState where
  result : UsbIdsData
  currentVendor : Option String
deriving Repr, DecidableEq

/-- Process one line of the registry, mirroring the loop body of
`parseUsbIds`. `none` models the JavaScript `TypeError` that
`result[currentVendor].devices[...] = ...` would raise if the current
vendor had no entry (proved unreachable below). -/
def processLine (st : ParseState) (line : String) : Option ParseState :=
  if jsStartsWith line "#" || jsTrim line = "" then
    some st
  else if !jsStartsWith line "\t" then
    match matchIdLine line.data with
    | some (vendorId, vendorName) =>
      let vid := toLowerStr ⟨vendorId⟩
      let entry : UsbVendor := { vendor := vid, name := jsTrim ⟨vendorName⟩, devices := [] }
      some { result := jsSet st.result vid entry, currentVendor := some vid }
    | none => some st
  else if jsStartsWith line "\t" && !jsStartsWith line "\t\t"
      && st.currentVendor.isSome then
    match st.currentVendor with
    | some cv =>
      match line.data with
      | '\t' :: afterTab =>
        match matchIdLine afterTab with
        | some (deviceId, deviceName) =>
          let did := toLowerStr ⟨deviceId⟩
          match jsGet st.result cv with
          | some vend =>
            let dev : UsbDevice := { devid := did, devname := jsTrim ⟨deviceName⟩ }
            let vend' : UsbVendor := { vend with devices := jsSet vend.devices did dev }
            some { st with result := jsSet st.result cv vend' }
          | none => none
        | none => some st
      | _ => some st
    | none => some st
  else
    some st

/-- Run the parser loop over a list of lines (a `TypeError` on any line
aborts the whole parse, as an uncaught exception would). -/
def processLines (st : ParseState) : List String → Option ParseState
  | [] => some st
  | l :: ls =>
    match processLine st l with
    | some st' => processLines st' ls
    | none => none

/-- `parseUsbIds(content)`: split into lines and stream them through the
state machine; `none` would be an uncaught `TypeError` (proved
impossible). -/
def parseUsbIds (content : String) : Option UsbIdsData :=
  (processLines ⟨[], none⟩ ((splitOnNl content.data).map (⟨·⟩))).map (·.result)

end UsbIds

namespace UsbIds

/-! ## Fingerprint (`generateContentHash`): SHA-256 over the UTF-8 bytes,
hex-encoded in lowercase, exactly as Node's
`crypto.createHash('sha256').update(content, 'utf8').digest('hex')`. -/

/-- UTF-8 encoding of one character (code point to bytes). -/
def charUtf8 (c : Char) : List Nat :=
  let n := c.toNat
  if n < 0x80 then [n]
  else if n < 0x800 then
    [0xc0 ||| (n >>> 6), 0x80 ||| (n &&& 0x3f)]
  else if n < 0x10000 then
    [0xe0 ||| (n >>> 12), 0x80 ||| ((n >>> 6) &&& 0x3f), 0x80 ||| (n &&& 0x3f)]
  else
    [0xf0 ||| (n >>> 18), 0x80 ||| ((n >>> 12) &&& 0x3f),
     0x80 ||| ((n >>> 6) &&& 0x3f), 0x80 ||| (n &&& 0x3f)]

/-- UTF-8 encoding of a string. -/
def utf8Bytes (s : String) : List Nat := s.data.flatMap charUtf8

/-- 32-bit truncation. -/
def mask32 (x : Nat) : Nat := x % 4294967296

/-- 32-bit right rotation. -/
def rotr (n x : Nat) : Nat := mask32 ((x >>> n) ||| (x <<< (32 - n)))

/-- The 64 SHA-256 round constants. -/
def sha256K : List Nat :=
  [1116352408, 1899447441, 3049323471, 3921009573, 961987163,
   1508970993, 2453635748, 2870763221, 3624381080, 310598401,
   607225278, 1426881987, 1925078388, 2162078206, 2614888103,
   3248222580, 3835390401, 4022224774, 264347078, 604807628,
   770255983, 1249150122, 1555081692, 1996064986, 2554220882,
   2821834349, 2952996808, 3210313671, 3336571891, 3584528711,
   113926993, 338241895, 666307205, 773529912, 1294757372,
   1396182291, 1695183700, 1986661051, 2177026350, 2456956037,
   2730485921, 2820302411, 3259730800, 3345764771, 3516065817,
   3600352804, 4094571909, 275423344, 430227734, 506948616,
   659060556, 883997877, 958139571, 1322822218, 1537002063,
   1747873779, 1955562222, 2024104815, 2227730452, 2361852424,
   2428436474, 2756734187, 3204031479, 3329325298]

/-- The SHA-256 initial hash value. -/
def sha256Init : List Nat :=
  [1779033703, 3144134277, 1013904242, 2773480762,
   1359893119, 2600822924, 528734635, 1541459225]

/-- Big-endian byte rendering of `x` on `n` bytes. -/
def toBytesBE (n x : Nat) : List Nat :=
  (List.range n).map (fun i => (x >>> (8 * (n - 1 - i))) &&& 0xff)

/-- SHA-256 padding: append `0x80`, zero bytes up to 56 mod 64, then the
bit length on 8 bytes. -/
def sha256Pad (msg : List Nat) : List Nat :=
  let padZeros := (119 - msg.length % 64) % 64
  msg ++ [0x80] ++ List.replicate padZeros 0 ++ toBytesBE 8 (8 * msg.length)

/-- Split a byte list into 64-byte blocks (structural recursion on a fuel
bound of one unit per block so the kernel can evaluate it; the fuel
`l.length` always suffices since every block consumes 64 bytes). -/
def chunks64Fuel : Nat → List Nat → List (List Nat)
  | 0, _ => []
  | _, [] => []
  | fuel + 1, a :: rest => ((a :: rest).take 64) :: chunks64Fuel fuel ((a :: rest).drop 64)

/-- Split a byte list into 64-byte blocks. -/
def chunks64 (l : List Nat) : List (List Nat) := chunks64Fuel l.length l

/-- The first 16 message-schedule words of a block (big-endian). -/
def blockWords : List Nat → List Nat
  | b0 :: b1 :: b2 :: b3 :: rest =>
    (((b0 <<< 24) ||| (b1 <<< 16) ||| (b2 <<< 8) ||| b3)) :: blockWords rest
  | _ => []

/-- Extend the message schedule by `k` further words. -/
def extendSchedule (w : List Nat) (k : Nat) : List Nat :=
  match k with
  | 0 => w
  | k + 1 =>
    let i := w.length
    let s0v := rotr 7 (w.getD (i - 15) 0) ^^^ rotr 18 (w.getD (i - 15) 0) ^^^
               ((w.getD (i - 15) 0) >>> 3)
    let s1v := rotr 17 (w.getD (i - 2) 0) ^^^ rotr 19 (w.getD (i - 2) 0) ^^^
               ((w.getD (i - 2) 0) >>> 10)
    extendSchedule (w ++ [mask32 (w.getD (i - 16) 0 + s0v + w.getD (i - 7) 0 + s1v)]) k

/-- The eight working variables of a SHA-256 compression round. -/
structure Sha256Vars where
  va : Nat
  vb : Nat
  vc : Nat
  vd : Nat
  ve : Nat
  vf : Nat
  vg : Nat
  vh : Nat
deriving Repr, DecidableEq

/-- One compression round with round constant `k` and schedule word `w`. -/
def sha256Round (s : Sha256Vars) (kw : Nat × Nat) : Sha256Vars :=
  let bigS1 := rotr 6 s.ve ^^^ rotr 11 s.ve ^^^ rotr 25 s.ve
  let ch := (s.ve &&& s.vf) ^^^ ((s.ve ^^^ 0xffffffff) &&& s.vg)
  let t1 := mask32 (s.vh + bigS1 + ch + kw.1 + kw.2)
  let bigS0 := rotr 2 s.va ^^^ rotr 13 s.va ^^^ rotr 22 s.va
  let maj := (s.va &&& s.vb) ^^^ (s.va &&& s.vc) ^^^ (s.vb &&& s.vc)
  let t2 := mask32 (bigS0 + maj)
  { va := mask32 (t1 + t2), vb := s.va, vc := s.vb, vd := s.vc,
    ve := mask32 (s.vd + t1), vf := s.ve, vg := s.vf, vh := s.vg }

/-- Compress one 64-byte block into the running hash. -/
def sha256Compress (hs : List Nat) (block : List Nat) : List Nat :=
  let w := extendSchedule (blockWords block) 48
  let init : Sha256Vars :=
    { va := hs.getD 0 0, vb := hs.getD 1 0, vc := hs.getD 2 0, vd := hs.getD 3 0,
      ve := hs.getD 4 0, vf := hs.getD 5 0, vg := hs.getD 6 0, vh := hs.getD 7 0 }
  let f := (List.zip sha256K w).foldl sha256Round init
  [mask32 (hs.getD 0 0 + f.va), mask32 (hs.getD 1 0 + f.vb),
   mask32 (hs.getD 2 0 + f.vc), mask32 (hs.getD 3 0 + f.vd),
   mask32 (hs.getD 4 0 + f.ve), mask32 (hs.getD 5 0 + f.vf),
   mask32 (hs.getD 6 0 + f.vg), mask32 (hs.getD 7 0 + f.vh)]

/-- SHA-256 digest of a byte list, as eight 32-bit words. -/
def sha256Words (msg : List Nat) : List Nat :=
  (chunks64 (sha256Pad msg)).foldl sha256Compress sha256Init

/-- Lowercase hex digit. -/
def hexDigit (n : Nat) : Char :=
  if n < 10 then Char.ofNat (48 + n) else Char.ofNat (87 + n)

/-- Lowercase hex rendering of a 32-bit word. -/
def wordToHex (x : Nat) : List Char :=
  (List.range 8).map (fun i => hexDigit ((x >>> (4 * (7 - i))) &&& 0xf))

/-- `generateContentHash(content)` from `src/parser.ts`: the SHA-256
digest of the content's UTF-8 bytes as a lowercase hex string. -/
def generateContentHash (content : String) : String :=
  ⟨(sha256Words (utf8Bytes content)).flatMap wordToHex⟩

end UsbIds

namespace UsbIds

/-! ## Version model (`src/parser.ts`, `plugins/plugin-usb-ids/utils.ts`) -/

/-- The data source tag: `'api' | 'fallback'`. -/
inductive Source where
  | api : Source
  | fallback : Source
deriving Repr, DecidableEq

/-- The persisted version record (`VersionInfo`). -/
structure VersionInfo where
  fetchTime : Int
  fetchTimeFormatted : String
  contentHash : String
  source : Source
  vendorCount : Nat
  deviceCount : Nat
  version : String
deriving Repr, DecidableEq

/-- Modelled from the spec: `fetchTimeFormatted` is a "human string,
informational only, not parsed back". The concrete rendering
(`Date#toLocaleString` / `Date#toISOString`) lives in the JS runtime's
date/locale machinery outside this repository, so it is modelled as an
injective placeholder rendering of the timestamp. No claim depends on
it. -/
def formatDateTime (timestamp : Int) : String := toString timestamp

/-- `createVersionInfo(data, rawContent, source)` from `src/parser.ts`
(the variant the published `core.ts` pipeline imports), with the
`Date.now()` reading passed in explicitly as `now`. Counts vendors as
`Object.keys(data).length` and devices as the sum of per-vendor
`Object.keys(vendor.devices).length`. -/
def createVersionInfo (data : UsbIdsData) (rawContent : String)
    (source : Source) (now : Int) : VersionInfo :=
  { fetchTime := now,
    fetchTimeFormatted := formatDateTime now,
    contentHash := generateContentHash rawContent,
    source := source,
    vendorCount := data.length,
    deviceCount := (data.map (fun kv => kv.2.devices.length)).sum,
    version := "v1.0." ++ toString now }

/-- The `package.json` contents as far as the plugin variant of
`createVersionInfo` observes them: the `version` field plus the remaining
fields, carried through unchanged (the model assumes the file, when
present, holds valid JSON; a parse failure is caught and leaves the file
untouched). -/
structure PackageJson where
  version : String
  rest : List (String × String)
deriving Repr, DecidableEq

/-- `createVersionInfo` from `plugins/plugin-usb-ids/utils.ts` (identical
in the legacy `utils` variant): builds the version record with label
`1.0.<now>` and, as a side effect, rewrites `package.json`'s `version`
field when that file exists. The filesystem effect is explicit: `pkg` is
the `package.json` state before the call and the second component of the
result is its state after. -/
def createVersionInfoPlugin (data : UsbIdsData) (rawContent : String)
    (source : Source) (now : Int) (pkg : Option PackageJson) :
    VersionInfo × Option PackageJson :=
  let version := "1.0." ++ toString now
  let pkg' : Option PackageJson :=
    match pkg with
    | some p => some { p with version := version }
    | none => none
  ({ fetchTime := now,
     fetchTimeFormatted := formatDateTime now,
     contentHash := generateContentHash rawContent,
     source := source,
     vendorCount := data.length,
     deviceCount := (data.map (fun kv => kv.2.devices.length)).sum,
     version := version }, pkg')

/-! ## Update policy (`shouldUpdate`) -/

/-- `shouldUpdate(versionInfo, forceUpdate)` with the `Date.now()` reading
passed in as `now`: force wins, a missing record always updates, and
otherwise the record is stale once it is at least 24 hours
(`24 * 60 * 60 * 1000` ms) old. The `core` variant compares
`now - fetchTime >= dayInMs` directly; the `parser.ts` variant divides by
`1000 * 60 * 60` first and compares with `24`, which coincides on integer
millisecond inputs. -/
def shouldUpdate (versionInfo : Option VersionInfo) (forceUpdate : Bool)
    (now : Int) : Bool :=
  if forceUpdate then true
  else
    match versionInfo with
    | none => true
    | some vi => decide (now - vi.fetchTime ≥ 24 * 60 * 60 * 1000)

/-! ## JSON serialization (`JSON.stringify`, used for the fallback raw
content) -/

/-- JSON string escaping as performed by `JSON.stringify`. -/
def jsonEscapeChar (c : Char) : List Char :=
  if c = '"' then ['\\', '"']
  else if c = '\\' then ['\\', '\\']
  else if c.toNat = 0x08 then ['\\', 'b']
  else if c = '\t' then ['\\', 't']
  else if c = '\n' then ['\\', 'n']
  else if c.toNat = 0x0c then ['\\', 'f']
  else if c = '\r' then ['\\', 'r']
  else if c.toNat < 0x20 then
    ['\\', 'u', '0', '0', hexDigit (c.toNat >>> 4), hexDigit (c.toNat &&& 0xf)]
  else [c]

/-- A JSON string literal. -/
def jsonQuote (s : String) : String :=
  ⟨'"' :: s.data.flatMap jsonEscapeChar ++ ['"']⟩

/-- `JSON.stringify` of a device entry. -/
def jsonOfDevice (d : UsbDevice) : String :=
  "\x7b\"devid\":" ++ jsonQuote d.devid ++ ",\"devname\":" ++ jsonQuote d.devname ++ "\x7d"

/-- `JSON.stringify` of a vendor entry. -/
def jsonOfVendor (v : UsbVendor) : String :=
  "\x7b\"vendor\":" ++ jsonQuote v.vendor ++ ",\"name\":" ++ jsonQuote v.name ++
  ",\"devices\":\x7b" ++
  String.intercalate "," (v.devices.map (fun kv => jsonQuote kv.1 ++ ":" ++ jsonOfDevice kv.2)) ++
  "\x7d\x7d"

/-- `JSON.stringify(data)` of the whole dataset, in key insertion
order. -/
def jsonStringify (data : UsbIdsData) : String :=
  "\x7b" ++
  String.intercalate "," (data.map (fun kv => jsonQuote kv.1 ++ ":" ++ jsonOfVendor kv.2)) ++
  "\x7d"

/-! ## Refresh pipeline (`fetchUsbIdsData` from `core.ts`) -/

/-- The environment a `fetchUsbIdsData` call runs against, with every
effectful reading made explicit: the persisted version record
(`loadVersionInfo`), the outcome of trying the download URLs in order
(`none` when every URL fails), whether the fallback JSON file exists, its
parsed contents when it does, and the `Date.now()` wall clock. -/
structure FetchEnv where
  existingVersion : Option VersionInfo
  download : Option String
  fallbackExists : Bool
  fallbackData : UsbIdsData
  now : Int

/-- The successful outcome of `fetchUsbIdsData`: the returned
`{ data, source, versionInfo }` triple plus instrumentation of the
effects the call performed — whether `parseUsbIds` ran, the version
record written to `usb.ids.version.json` (`none` when nothing was
published) and the raw `usb.ids` file written. -/
structure FetchOk where
  data : UsbIdsData
  source : Source
  versionInfo : VersionInfo
  parseCalled : Bool
  savedVersion : Option VersionInfo
  savedRaw : Option String
deriving Repr, DecidableEq

/-- The tail of `fetchUsbIdsData` once a download succeeded and the
content-equal short-circuit declined: save the raw file, parse, build and
persist the version record. A parser `TypeError` would propagate
(proved impossible). -/
def fetchParse (env : FetchEnv) (content : String) : Except String FetchOk :=
  match parseUsbIds content with
  | some data =>
    let vi := createVersionInfo data content Source.api env.now
    Except.ok { data := data, source := Source.api, versionInfo := vi,
                parseCalled := true, savedVersion := some vi, savedRaw := some content }
  | none => Except.error "TypeError"

/-- The branch of `fetchUsbIdsData` for a successful download: when a
previous record exists and the update is not forced, a digest equal to
`existingVersion.contentHash` returns the fallback file's data unchanged —
but only if that file exists; otherwise the fresh content is parsed and
published. -/
def fetchWithContent (env : FetchEnv) (forceUpdate : Bool) (content : String) :
    Except String FetchOk :=
  match env.existingVersion, forceUpdate with
  | some vi, false =>
    if generateContentHash content = vi.contentHash ∧ env.fallbackExists = true then
      Except.ok { data := env.fallbackData, source := Source.fallback,
                  versionInfo := vi, parseCalled := false,
                  savedVersion := none, savedRaw := none }
    else fetchParse env content
  | _, _ => fetchParse env content

/-- The part of `fetchUsbIdsData` after the time gate: try the download;
on success run the content check, otherwise fall back to the local JSON
file (hashing its `JSON.stringify` serialization), and fail when that
file is missing too. -/
def fetchRest (env : FetchEnv) (forceUpdate : Bool) : Except String FetchOk :=
  match env.download with
  | some content => fetchWithContent env forceUpdate content
  | none =>
    if env.fallbackExists then
      let rawContent := jsonStringify env.fallbackData
      let vi := createVersionInfo env.fallbackData rawContent Source.fallback env.now
      Except.ok { data := env.fallbackData, source := Source.fallback,
                  versionInfo := vi, parseCalled := false,
                  savedVersion := some vi, savedRaw := none }
    else Except.error "no fresh data and no fallback file"

/-- `fetchUsbIdsData(usbIdsUrls, fallbackFile, root, forceUpdate)` from
`core.ts`, over an explicit environment: when `shouldUpdate` declines and
the fallback file exists, the existing record and the fallback data are
returned untouched (the `existingVersion!` there is necessarily present
because `shouldUpdate(null, ...) = true`); in every other case the fetch
proceeds. -/
def fetchUsbIdsData (env : FetchEnv) (forceUpdate : Bool) : Except String FetchOk :=
  if shouldUpdate env.existingVersion forceUpdate env.now = false
      ∧ env.fallbackExists = true then
    match env.existingVersion with
    | some vi =>
      Except.ok { data := env.fallbackData, source := Source.fallback,
                  versionInfo := vi, parseCalled := false,
                  savedVersion := none, savedRaw := none }
    | none => fetchRest env forceUpdate
  else fetchRest env forceUpdate

/-- Whether a fetch outcome is a success. -/
def fetchIsOk (r : Except String FetchOk) : Bool :=
  match r with
  | Except.ok _ => true
  | Except.error _ => false

/-- Whether a fetch outcome invoked the parser. -/
def fetchParseCalled (r : Except String FetchOk) : Bool :=
  match r with
  | Except.ok ok => ok.parseCalled
  | Except.error _ => false

end UsbIds

namespace UsbIds

/-! ## Query engine (`src/api.ts`) -/

/-- The polymorphic vendor filter `string | predicate | {id?, name?,
search?}` as a closed sum. -/
inductive VendorFilter where
  | str : String → VendorFilter
  | pred : (UsbVendor → Bool) → VendorFilter
  | obj : Option String → Option String → Option String → VendorFilter

/-- The polymorphic device filter, same shape over devices. -/
inductive DeviceFilter where
  | str : String → DeviceFilter
  | pred : (UsbDevice → Bool) → DeviceFilter
  | obj : Option String → Option String → Option String → DeviceFilter

/-- JavaScript truthiness of an optional string field (`undefined` and
`""` are falsy). -/
def strTruthy (o : Option String) : Bool :=
  match o with
  | none => false
  | some s => !(s = "")

/-- The object-filter branch of `filterVendors`: each truthy field
constrains independently; `search` matches id or name. -/
def vendorMatchesObj (idF nameF searchF : Option String) (v : UsbVendor) : Bool :=
  if strTruthy idF && !jsIncludes (toLowerStr v.vendor) (toLowerStr (idF.getD "")) then
    false
  else if strTruthy nameF && !jsIncludes (toLowerStr v.name) (toLowerStr (nameF.getD "")) then
    false
  else if strTruthy searchF then
    jsIncludes (toLowerStr v.vendor) (toLowerStr (searchF.getD "")) ||
    jsIncludes (toLowerStr v.name) (toLowerStr (searchF.getD ""))
  else true

/-- The object-filter branch of `filterDevices`. -/
def deviceMatchesObj (idF nameF searchF : Option String) (d : UsbDevice) : Bool :=
  if strTruthy idF && !jsIncludes (toLowerStr d.devid) (toLowerStr (idF.getD "")) then
    false
  else if strTruthy nameF && !jsIncludes (toLowerStr d.devname) (toLowerStr (nameF.getD "")) then
    false
  else if strTruthy searchF then
    jsIncludes (toLowerStr d.devid) (toLowerStr (searchF.getD "")) ||
    jsIncludes (toLowerStr d.devname) (toLowerStr (searchF.getD ""))
  else true

/-- `filterVendors(data, filter?)`: `Object.values(data)` filtered by the
polymorphic filter; an absent filter returns every vendor. -/
def filterVendors (data : UsbIdsData) (filter : Option VendorFilter) :
    List UsbVendor :=
  let vendors := data.map Prod.snd
  match filter with
  | none => vendors
  | some (VendorFilter.str s) =>
    let searchTerm := toLowerStr s
    vendors.filter (fun vendor =>
      jsIncludes (toLowerStr vendor.vendor) searchTerm ||
      jsIncludes (toLowerStr vendor.name) searchTerm)
  | some (VendorFilter.pred f) => vendors.filter f
  | some (VendorFilter.obj idF nameF searchF) =>
    vendors.filter (vendorMatchesObj idF nameF searchF)

/-- `filterDevices(vendor, filter?)`: `Object.values(vendor.devices)`
filtered by the polymorphic filter; an absent filter returns every
device. -/
def filterDevices (vendor : UsbVendor) (filter : Option DeviceFilter) :
    List UsbDevice :=
  let devices := vendor.devices.map Prod.snd
  match filter with
  | none => devices
  | some (DeviceFilter.str s) =>
    let searchTerm := toLowerStr s
    devices.filter (fun device =>
      jsIncludes (toLowerStr device.devid) searchTerm ||
      jsIncludes (toLowerStr device.devname) searchTerm)
  | some (DeviceFilter.pred f) => devices.filter f
  | some (DeviceFilter.obj idF nameF searchF) =>
    devices.filter (deviceMatchesObj idF nameF searchF)

/-- One pre-sort search result `{ vendor, device, priority }`. -/
structure ScoredResult where
  vendor : UsbVendor
  device : UsbDevice
  priority : Nat
deriving Repr, DecidableEq

/-- The inclusion test of `searchInData` for one device under its vendor:
the lowercased query term is a substring of the device id, the device
name, or the vendor name/id. -/
def searchMatches (searchTerm : String) (vendor : UsbVendor) (device : UsbDevice) : Bool :=
  jsIncludes (toLowerStr device.devid) searchTerm ||
  jsIncludes (toLowerStr device.devname) searchTerm ||
  (jsIncludes (toLowerStr vendor.name) searchTerm ||
   jsIncludes (toLowerStr vendor.vendor) searchTerm)

/-- The relevance score of `searchInData`, written as the specification
states it: 100 for an exact device-id match, else 50 for a device-id
substring match, plus 30 for a device-name match, plus 10 for a vendor
name/id match. The loop body accumulates exactly these summands. -/
def specScore (searchTerm : String) (vendor : UsbVendor) (device : UsbDevice) : Nat :=
  (if toLowerStr device.devid = searchTerm then 100
   else if jsIncludes (toLowerStr device.devid) searchTerm then 50
   else 0) +
  (if jsIncludes (toLowerStr device.devname) searchTerm then 30 else 0) +
  (if jsIncludes (toLowerStr vendor.name) searchTerm ||
      jsIncludes (toLowerStr vendor.vendor) searchTerm then 10 else 0)

/-- The `{ vendor, device, priority }` object the loop body of
`searchInData` pushes: the priority is accumulated exactly as the code
does (100 for an exact device-id match, else 50 for a device-id substring
match, `+ 30` for a device-name match, `+ 10` for a vendor match). -/
def scoredOf (searchTerm : String) (vendor : UsbVendor) (device : UsbDevice) :
    ScoredResult :=
  let deviceIdMatch := jsIncludes (toLowerStr device.devid) searchTerm
  let deviceNameMatch := jsIncludes (toLowerStr device.devname) searchTerm
  let vendorMatch := jsIncludes (toLowerStr vendor.name) searchTerm ||
                     jsIncludes (toLowerStr vendor.vendor) searchTerm
  let p0 : Nat := if toLowerStr device.devid = searchTerm then 100
                  else if deviceIdMatch then 50 else 0
  let p1 : Nat := if deviceNameMatch then p0 + 30 else p0
  let p2 : Nat := if vendorMatch then p1 + 10 else p1
  { vendor := vendor, device := device, priority := p2 }

/-- The double `forEach` of `searchInData`: every device of every vendor
that passes the inclusion test is pushed with its priority, in dataset
order. -/
def searchScored (data : UsbIdsData) (searchTerm : String) : List ScoredResult :=
  data.flatMap (fun kv =>
    kv.2.devices.flatMap (fun dkv =>
      if searchMatches searchTerm kv.2 dkv.2 then [scoredOf searchTerm kv.2 dkv.2]
      else []))

/-- `searchInData(data, query)`: empty for a blank query, otherwise the
scored results sorted by descending priority (`(a, b) => b.priority -
a.priority`, a stable sort in JS) with the priorities stripped. -/
def searchInData (data : UsbIdsData) (query : String) :
    List (UsbVendor × UsbDevice) :=
  if jsTrim query = "" then []
  else
    let searchTerm := jsTrim (toLowerStr query)
    (((searchScored data searchTerm).mergeSort
        (fun a b => decide (b.priority ≤ a.priority))).map
      (fun r => (r.vendor, r.device)))

/-- The pure core of `getDevices(vendorId, filter?)`: resolve the vendor
with the strict-equality predicate `v => v.vendor === vendorId` through
`getVendor`/`getVendors` (first match or none) and filter its devices;
an unresolved vendor yields `[]`. -/
def getDevicesInData (data : UsbIdsData) (vendorId : String)
    (filter : Option DeviceFilter) : List UsbDevice :=
  match (filterVendors data (some (VendorFilter.pred (fun v => v.vendor == vendorId)))).head? with
  | none => []
  | some vendor => filterDevices vendor filter

/-- The pure core of `getDevice(vendorId, deviceId)`: resolve the vendor
the same way, then read `vendor.devices[deviceId]`; `null` when either
lookup misses. -/
def getDeviceInData (data : UsbIdsData) (vendorId deviceId : String) :
    Option UsbDevice :=
  match (filterVendors data (some (VendorFilter.pred (fun v => v.vendor == vendorId)))).head? with
  | none => none
  | some vendor =>
    match jsGet vendor.devices deviceId with
    | none => none
    | some d => some d

end UsbIds

namespace UsbIds

/-! ## Shared sample values for witnesses -/

/-- A minimal concrete version record for witness instantiations. -/
def viSample : VersionInfo :=
  { fetchTime := 0, fetchTimeFormatted := "", contentHash := "",
    source := Source.api, vendorCount := 0, deviceCount := 0, version := "" }

/-- Claim C3: `shouldUpdate` returns true whenever `forceUpdate` is true,
true whenever no previous record exists, and otherwise true iff
`now - previous.fetchTime` is at least 24 hours in milliseconds; in
particular it is false at `fetchTime + 24h - 1ms` and true at
`fetchTime + 24h`. -/
theorem C3_shouldUpdate_threshold (vi : VersionInfo) (now : Int) (f : Bool) :
    shouldUpdate none f now = true ∧
    shouldUpdate (some vi) true now = true ∧
    (f = false →
      (shouldUpdate (some vi) f now = true ↔
        now - vi.fetchTime ≥ 24 * 60 * 60 * 1000)) ∧
    shouldUpdate (some vi) false (vi.fetchTime + 24 * 60 * 60 * 1000 - 1) = false ∧
    shouldUpdate (some vi) false (vi.fetchTime + 24 * 60 * 60 * 1000) = true := by
  refine ⟨by cases f <;> simp [shouldUpdate], by simp [shouldUpdate],
    fun hf => by subst hf; simp [shouldUpdate], by simp [shouldUpdate]; omega,
    by simp [shouldUpdate]⟩

/-- Witness for C3 at a concrete record and clock reading. -/
theorem C3_witness :
    (false = false) ∧
    (shouldUpdate (some viSample) false 86400000 = true ↔
      (86400000 : Int) - viSample.fetchTime ≥ 24 * 60 * 60 * 1000) :=
  ⟨rfl, (C3_shouldUpdate_threshold viSample 86400000 false).2.2.1 rfl⟩

/-- Claim C8: the claim states the version label is exactly
`"1.0.<epoch-millis>"`. The `createVersionInfo` of `src/parser.ts` — the
variant the published pipeline uses — produces `"v1.0.<epoch-millis>"`
instead (contradicting the repository's own VERSION_MANAGEMENT.md and
README, which document the persisted JSON `version` as `1.0.{timestamp}`
without the `v` prefix), while the plugin/legacy variants produce the
documented `"1.0.<epoch-millis>"`. Both labels are derived from the clock
reading alone. -/
theorem C8_version_label :
    (createVersionInfo [] "" Source.api 5).version = "v1.0.5" ∧
    (createVersionInfoPlugin [] "" Source.api 5 none).1.version = "1.0.5" ∧
    (∀ (data : UsbIdsData) (raw : String) (src : Source) (now : Int),
      (createVersionInfo data raw src now).version = "v1.0." ++ toString now) ∧
    (∀ (data : UsbIdsData) (raw : String) (src : Source) (now : Int)
        (pkg : Option PackageJson),
      (createVersionInfoPlugin data raw src now pkg).1.version = "1.0." ++ toString now) :=
  ⟨by decide, by decide, fun _ _ _ _ => rfl, fun _ _ _ _ _ => rfl⟩

/-- Claim C9 (amended): the plugin/legacy `createVersionInfo` variant is
not free of filesystem effects — it rewrites `package.json`'s `version`
field whenever that file exists — but its returned version record is
independent of the `package.json` state, and the file is untouched when
absent. (The `src/parser.ts` variant used by the published pipeline takes
no filesystem state at all in this embedding, i.e. performs no such
write.) -/
theorem C9_plugin_version_effect (data : UsbIdsData) (raw : String) (src : Source)
    (now : Int) (p : PackageJson) :
    (createVersionInfoPlugin data raw src now (some p)).1 =
      (createVersionInfoPlugin data raw src now none).1 ∧
    (createVersionInfoPlugin data raw src now (some p)).2 =
      some { p with version := "1.0." ++ toString now } ∧
    (createVersionInfoPlugin data raw src now none).2 = none :=
  ⟨rfl, rfl, rfl⟩

/-- Counterexample to C9 as claimed: at a concrete call the
`package.json` state after `createVersionInfo` differs from the state
before, so the function does not leave external state unchanged. -/
theorem C9_package_json_mutated :
    (createVersionInfoPlugin [] "" Source.api 5
        (some { version := "0.0.0", rest := [] })).2 ≠
      some { version := "0.0.0", rest := [] } := by decide

end UsbIds

namespace UsbIds

/-! ## Association-list lemmas for the JS object model -/


theorem jsGet_jsSet_self {α : Type} (m : List (String × α)) (k : String) (v : α) :
    jsGet (jsSet m k v) k = some v := by
  induction m with
  | nil => simp [jsSet, jsGet]
  | cons p rest ih =>
    obtain ⟨k', v'⟩ := p
    by_cases h : k' = k
    · simp [jsSet, h, jsGet]
    · simp [jsSet, h, jsGet, ih]

theorem jsGet_jsSet_ne {α : Type} (m : List (String × α)) (k a : String) (v : α)
    (h : k ≠ a) : jsGet (jsSet m k v) a = jsGet m a := by
  induction m with
  | nil => simp [jsSet, jsGet, h]
  | cons p rest ih =>
    obtain ⟨k', v'⟩ := p
    by_cases hk : k' = k
    · subst hk
      simp [jsSet, jsGet, h]
    · simp [jsSet, hk, jsGet, ih]

theorem mem_jsSet {α : Type} {m : List (String × α)} {k : String} {v : α}
    {p : String × α} (hp : p ∈ jsSet m k v) : p = (k, v) ∨ p ∈ m := by
  induction m with
  | nil => simpa [jsSet] using hp
  | cons q rest ih =>
    obtain ⟨k', v'⟩ := q
    by_cases hk : k' = k
    · simp [jsSet, hk] at hp
      rcases hp with h | h
      · exact Or.inl (by simp [h])
      · exact Or.inr (by simp [h])
    · simp [jsSet, hk] at hp
      rcases hp with h | h
      · exact Or.inr (by simp [h])
      · rcases ih h with h' | h'
        · exact Or.inl h'
        · exact Or.inr (by simp [h'])

theorem keys_jsSet {α : Type} (m : List (String × α)) (k a : String) (v : α) :
    a ∈ (jsSet m k v).map Prod.fst ↔ a = k ∨ a ∈ m.map Prod.fst := by
  induction m with
  | nil => simp [jsSet]
  | cons p rest ih =>
    obtain ⟨k', v'⟩ := p
    by_cases hk : k' = k
    · subst hk
      simp [jsSet]
    · simp [jsSet, hk, ih]
      tauto

theorem nodup_keys_jsSet {α : Type} {m : List (String × α)} (k : String) (v : α)
    (h : (m.map Prod.fst).Nodup) : ((jsSet m k v).map Prod.fst).Nodup := by
  induction m with
  | nil => simp [jsSet]
  | cons p rest ih =>
    obtain ⟨k', v'⟩ := p
    rw [List.map_cons, List.nodup_cons] at h
    by_cases hk : k' = k
    · subst hk
      simpa [jsSet] using h
    · have hrec := ih h.2
      simp only [jsSet, hk, if_false]
      rw [List.map_cons, List.nodup_cons]
      refine ⟨?_, hrec⟩
      intro hmem
      rcases (keys_jsSet rest k k' v).mp hmem with h' | h'
      · exact hk h'
      · exact h.1 h'

theorem jsGet_mem {α : Type} {m : List (String × α)} {k : String} {v : α}
    (h : jsGet m k = some v) : (k, v) ∈ m := by
  induction m with
  | nil => simp [jsGet] at h
  | cons p rest ih =>
    obtain ⟨k', v'⟩ := p
    by_cases hk : k' = k
    · subst hk
      simp [jsGet] at h
      simp [h]
    · simp [jsGet, hk] at h
      simp [ih h]

theorem jsGet_eq_none {α : Type} {m : List (String × α)} {k : String}
    (h : ∀ p ∈ m, p.1 ≠ k) : jsGet m k = none := by
  induction m with
  | nil => simp [jsGet]
  | cons p rest ih =>
    obtain ⟨k', v'⟩ := p
    have h1 : k' ≠ k := h (k', v') (by simp)
    simp [jsGet, h1]
    exact ih (fun q hq => h q (by simp [hq]))

end UsbIds

namespace UsbIds

/-! ## Parser totality and tolerance (the invariant behind C4) -/


def stOk (st : ParseState) : Prop :=
  ∀ cv, st.currentVendor = some cv → (jsGet st.result cv).isSome = true

theorem processLine_ok (st : ParseState) (line : String) (h : stOk st) :
    ∃ st', processLine st line = some st' ∧ stOk st' := by
  unfold processLine
  split
  · exact ⟨st, rfl, h⟩
  · split
    · split
      · refine ⟨_, rfl, ?_⟩
        intro cv hcv
        simp at hcv
        subst hcv
        simp [jsGet_jsSet_self]
      · exact ⟨st, rfl, h⟩
    · split
      · split
        next cv hcv =>
          split
          next afterTab hline =>
            split
            next deviceId deviceName hmatch =>
              dsimp only
              split
              next vend hget =>
                refine ⟨_, rfl, ?_⟩
                intro cv' hcv'
                simp only at hcv'
                by_cases hc : cv = cv'
                · subst hc
                  simp [jsGet_jsSet_self]
                · rw [jsGet_jsSet_ne _ _ _ _ hc]
                  exact h cv' hcv'
              next hget =>
                have hsome := h cv hcv
                rw [hget] at hsome
                simp at hsome
            next hmatch => exact ⟨st, rfl, h⟩
          next => exact ⟨st, rfl, h⟩
        next hcv => exact ⟨st, rfl, h⟩
      · exact ⟨st, rfl, h⟩


theorem processLines_ok (lines : List String) :
    ∀ st, stOk st → ∃ st', processLines st lines = some st' ∧ stOk st' := by
  induction lines with
  | nil => exact fun st h => ⟨st, rfl, h⟩
  | cons l ls ih =>
    intro st h
    obtain ⟨st1, h1, hok1⟩ := processLine_ok st l h
    obtain ⟨st2, h2, hok2⟩ := ih st1 hok1
    exact ⟨st2, by simp [processLines, h1, h2], hok2⟩

/-- The initial parser state satisfies the invariant vacuously. -/
theorem stOk_init : stOk ⟨[], none⟩ := fun cv hcv => by simp at hcv

/-- Classification: a line that parses as a vendor header (matches the id
pattern and does not start with a tab). -/
def isVendorHeaderB (line : String) : Bool :=
  (matchIdLine line.data).isSome && !jsStartsWith line "\t"

/-- Classification: a line that parses as a device line under an active
vendor (single leading tab, active vendor, and the id pattern matches
after the tab). -/
def isActiveDeviceLineB (st : ParseState) (line : String) : Bool :=
  jsStartsWith line "\t" && !jsStartsWith line "\t\t" && st.currentVendor.isSome &&
  (matchIdLine (line.data.drop 1)).isSome

theorem processLine_drop (st : ParseState) (line : String)
    (hv : isVendorHeaderB line = false) (hd : isActiveDeviceLineB st line = false) :
    processLine st line = some st := by
  unfold processLine
  split
  · rfl
  · split
    next h2 =>
      split
      next vid vname hmatch =>
        exfalso
        unfold isVendorHeaderB at hv
        rw [hmatch] at hv
        simp [h2] at hv
      next => rfl
    next h2 =>
      split
      next h3 =>
        split
        next cv hcv =>
          split
          next afterTab hline =>
            split
            next did dname hmatch =>
              exfalso
              unfold isActiveDeviceLineB at hd
              rw [hline] at hd
              simp [hmatch] at hd
              simp only [Bool.and_eq_true, Bool.not_eq_true'] at h3
              rw [hd h3.1.1 h3.1.2] at hcv
              simp at hcv
            next => rfl
          next => rfl
        next => rfl
      next => rfl


/-- Claim C4: the parser never raises on any input: the run is total
(`isSome`), every line that is neither a well-formed vendor header nor a
well-formed single-tab device line under an active vendor leaves the
state untouched, and the claim's concrete example parses to exactly one
vendor `1234` "Good Vendor" with exactly one device `00a1` "Good
Device". -/
theorem C4_parser_tolerant :
    (∀ content : String, (parseUsbIds content).isSome = true) ∧
    (∀ (st : ParseState) (line : String),
      isVendorHeaderB line = false → isActiveDeviceLineB st line = false →
      processLine st line = some st) ∧
    parseUsbIds "not a valid line\n1234 Good Vendor\n\tbadline\n\t00a1 Good Device\n" =
      some [("1234", { vendor := "1234", name := "Good Vendor",
                       devices := [("00a1", { devid := "00a1", devname := "Good Device" })] })] := by
  refine ⟨?_, processLine_drop, by decide⟩
  intro content
  obtain ⟨st', h1, _⟩ :=
    processLines_ok ((splitOnNl content.data).map (fun l => (⟨l⟩ : String)))
      ⟨[], none⟩ stOk_init
  simp [parseUsbIds, h1]

/-- Witness for C4 at a concrete malformed device line. -/
theorem C4_witness :
    isVendorHeaderB "\tbadline" = false ∧
    isActiveDeviceLineB ⟨[], none⟩ "\tbadline" = false ∧
    processLine ⟨[], none⟩ "\tbadline" = some ⟨[], none⟩ :=
  ⟨by decide, by decide,
    C4_parser_tolerant.2.1 ⟨[], none⟩ "\tbadline" (by decide) (by decide)⟩

end UsbIds

namespace UsbIds

/-! ## Last-write-wins machinery for C5 -/


theorem matchIdLine_eq_some {l id rest : List Char}
    (h : matchIdLine l = some (id, rest)) :
    ∃ c0 c1 c2 c3 s, l = c0 :: c1 :: c2 :: c3 :: s :: rest ∧ id = [c0, c1, c2, c3] ∧
      isHexDigitCI c0 = true ∧ isHexDigitCI c1 = true ∧ isHexDigitCI c2 = true ∧
      isHexDigitCI c3 = true := by
  unfold matchIdLine at h
  split at h
  next c0 c1 c2 c3 s r =>
    split at h
    next hcond =>
      simp only [Option.some.injEq, Prod.mk.injEq] at h
      simp only [Bool.and_eq_true] at hcond
      exact ⟨c0, c1, c2, c3, s, by rw [h.2], h.1.symm, hcond.1.1.1.1.1.1,
        hcond.1.1.1.1.1.2, hcond.1.1.1.1.2, hcond.1.1.1.2⟩
    next => simp at h
  next => simp at h

theorem hex_ne_hash {c : Char} (h : isHexDigitCI c = true) : c ≠ '#' := by
  intro he
  subst he
  exact absurd h (by decide)

theorem hex_ne_tab {c : Char} (h : isHexDigitCI c = true) : c ≠ '\t' := by
  intro he
  subst he
  exact absurd h (by decide)

theorem hex_not_ws {c : Char} (h : isHexDigitCI c = true) :
    isJsWhitespace c = false := by
  cases hw : isJsWhitespace c
  · rfl
  · exfalso
    unfold isHexDigitCI at h
    unfold isJsWhitespace at hw
    simp only [Bool.or_eq_true, Bool.and_eq_true, decide_eq_true_eq] at h hw
    omega


theorem startsWith_single_false {line : String} {c0 : Char} {l : List Char}
    {p : Char} {ps : String}
    (hd : line.data = c0 :: l) (hps : ps.data = [p]) (hc : c0 ≠ p) :
    jsStartsWith line ps = false := by
  unfold jsStartsWith
  rw [hd, hps]
  simp [List.cons_prefix_cons]
  intro h'
  exact hc h'.symm

theorem startsWith_tab_true {line : String} {l : List Char}
    (hd : line.data = '\t' :: l) : jsStartsWith line "\t" = true := by
  unfold jsStartsWith
  rw [hd]
  simp [List.cons_prefix_cons]

theorem startsWith_tabtab_false {line : String} {l : List Char} {c : Char}
    (hd : line.data = '\t' :: c :: l) (hc : c ≠ '\t') :
    jsStartsWith line "\t\t" = false := by
  unfold jsStartsWith
  rw [hd]
  simp [List.cons_prefix_cons]
  intro h'
  exact hc h'.symm

theorem mem_dropWhile_of_not {l : List Char} {c : Char} (hc : c ∈ l)
    (hw : isJsWhitespace c = false) : c ∈ l.dropWhile isJsWhitespace := by
  induction l with
  | nil => simp at hc
  | cons a rest ih =>
    by_cases ha : isJsWhitespace a
    · rw [List.dropWhile_cons_of_pos ha]
      rcases List.mem_cons.mp hc with h | h
      · subst h
        rw [hw] at ha
        simp at ha
      · exact ih h
    · rw [List.dropWhile_cons_of_neg ha]
      exact hc

theorem jsTrim_ne_empty_of_mem {line : String} {c : Char} (hc : c ∈ line.data)
    (hw : isJsWhitespace c = false) : ¬(jsTrim line = "") := by
  intro h
  have hdata : (((line.data.dropWhile isJsWhitespace).reverse.dropWhile
      isJsWhitespace).reverse : List Char) = ([] : List Char) := congrArg String.data h
  rw [List.reverse_eq_nil_iff] at hdata
  rw [List.dropWhile_eq_nil_iff] at hdata
  have h1 : c ∈ line.data.dropWhile isJsWhitespace := mem_dropWhile_of_not hc hw
  have h2 : c ∈ (line.data.dropWhile isJsWhitespace).reverse := by
    simpa using h1
  rw [hdata c h2] at hw
  simp at hw


/-- The vendor entry the parser inserts for a matched header line. -/
def vendorEntry (id rest : List Char) : UsbVendor :=
  { vendor := toLowerStr ⟨id⟩, name := jsTrim ⟨rest⟩, devices := [] }

/-- The device entry the parser inserts for a matched device line. -/
def deviceEntry (id rest : List Char) : UsbDevice :=
  { devid := toLowerStr ⟨id⟩, devname := jsTrim ⟨rest⟩ }

theorem processLine_vendor {st : ParseState} {line : String} {id rest : List Char}
    (h : matchIdLine line.data = some (id, rest)) :
    processLine st line =
      some ⟨jsSet st.result (toLowerStr ⟨id⟩) (vendorEntry id rest), some (toLowerStr ⟨id⟩)⟩ := by
  obtain ⟨c0, c1, c2, c3, s, hl, hid, h0, h1x, h2x, h3x⟩ := matchIdLine_eq_some h
  have hhash : jsStartsWith line "#" = false :=
    startsWith_single_false hl rfl (hex_ne_hash h0)
  have htab : jsStartsWith line "\t" = false :=
    startsWith_single_false hl rfl (hex_ne_tab h0)
  have htrim : ¬(jsTrim line = "") :=
    jsTrim_ne_empty_of_mem (by rw [hl]; simp) (hex_not_ws h0)
  unfold processLine
  simp [hhash, htab, htrim, h, vendorEntry]

theorem processLine_device {st : ParseState} {cv : String} {vend : UsbVendor}
    {line : String} {tail id rest : List Char}
    (hcv : st.currentVendor = some cv) (hget : jsGet st.result cv = some vend)
    (hline : line.data = '\t' :: tail) (hmatch : matchIdLine tail = some (id, rest)) :
    processLine st line =
      some ⟨jsSet st.result cv
        ({ vend with devices := jsSet vend.devices (toLowerStr ⟨id⟩) (deviceEntry id rest) }),
       st.currentVendor⟩ := by
  obtain ⟨c0, c1, c2, c3, s, hl, hid, h0, h1x, h2x, h3x⟩ := matchIdLine_eq_some hmatch
  have hdata : line.data = '\t' :: c0 :: c1 :: c2 :: c3 :: s :: rest := by
    rw [hline, hl]
  have hhash : jsStartsWith line "#" = false :=
    startsWith_single_false hdata rfl (by decide)
  have htab : jsStartsWith line "\t" = true := startsWith_tab_true hdata
  have htabtab : jsStartsWith line "\t\t" = false :=
    startsWith_tabtab_false hdata (hex_ne_tab h0)
  have htrim : ¬(jsTrim line = "") :=
    jsTrim_ne_empty_of_mem (c := c0) (by rw [hdata]; simp) (hex_not_ws h0)
  unfold processLine
  simp [hhash, htab, htabtab, htrim, hcv, hget, hline, hmatch, deviceEntry]


/-- Whether a line is a vendor header that (after lower-casing) redefines
the vendor id `v`. -/
def vendorHeaderFor (v : String) (line : String) : Bool :=
  match matchIdLine line.data with
  | some (id, _) => toLowerStr ⟨id⟩ = v
  | none => false

theorem startsWith_tab_data {line : String} (h : jsStartsWith line "\t" = true) :
    ∃ tail, line.data = '\t' :: tail := by
  unfold jsStartsWith at h
  simp only [decide_eq_true_eq] at h
  cases hd : line.data with
  | nil => rw [hd] at h; simp at h
  | cons c l =>
    rw [hd] at h
    rw [List.cons_prefix_cons] at h
    exact ⟨l, by rw [h.1.symm]⟩

theorem isVendorHeaderB_true {line : String} (h : isVendorHeaderB line = true) :
    ∃ id rest, matchIdLine line.data = some (id, rest) := by
  unfold isVendorHeaderB at h
  simp only [Bool.and_eq_true] at h
  obtain ⟨⟨id, rest⟩, hm⟩ := Option.isSome_iff_exists.mp h.1
  exact ⟨id, rest, hm⟩

theorem isVendorHeaderB_of_match {line : String} {id rest : List Char}
    (h : matchIdLine line.data = some (id, rest)) : isVendorHeaderB line = true := by
  obtain ⟨c0, c1, c2, c3, s, hl, hid, h0, h1x, h2x, h3x⟩ := matchIdLine_eq_some h
  unfold isVendorHeaderB
  rw [h, startsWith_single_false hl rfl (hex_ne_tab h0)]
  rfl

theorem isActiveDeviceLineB_unpack {st : ParseState} {line : String}
    (h : isActiveDeviceLineB st line = true) :
    ∃ cv tail id rest, st.currentVendor = some cv ∧ line.data = '\t' :: tail ∧
      matchIdLine tail = some (id, rest) := by
  unfold isActiveDeviceLineB at h
  simp only [Bool.and_eq_true] at h
  obtain ⟨⟨⟨htab, htt⟩, hsome⟩, hmatch⟩ := h
  obtain ⟨tail, hdata⟩ := startsWith_tab_data htab
  obtain ⟨cv, hcv⟩ := Option.isSome_iff_exists.mp hsome
  have hdrop : line.data.drop 1 = tail := by rw [hdata]; rfl
  rw [hdrop] at hmatch
  obtain ⟨⟨id, rest⟩, hm⟩ := Option.isSome_iff_exists.mp hmatch
  exact ⟨cv, tail, id, rest, hcv, hdata, hm⟩

theorem processLine_name_preserved {st st' : ParseState} {line v : String}
    (hok : stOk st) (hrun : processLine st line = some st')
    (hnv : vendorHeaderFor v line = false) :
    (jsGet st'.result v).map UsbVendor.name =
      (jsGet st.result v).map UsbVendor.name := by
  by_cases hv : isVendorHeaderB line = true
  · obtain ⟨id, rest, hmatch⟩ := isVendorHeaderB_true hv
    rw [processLine_vendor hmatch] at hrun
    simp only [Option.some.injEq] at hrun
    subst hrun
    have hne : toLowerStr ⟨id⟩ ≠ v := by
      unfold vendorHeaderFor at hnv
      rw [hmatch] at hnv
      simpa using hnv
    simp [jsGet_jsSet_ne _ _ _ _ hne]
  · by_cases hd : isActiveDeviceLineB st line = true
    · obtain ⟨cv, tail, id, rest, hcv, hdata, hm⟩ := isActiveDeviceLineB_unpack hd
      obtain ⟨vend, hget⟩ := Option.isSome_iff_exists.mp (hok cv hcv)
      rw [processLine_device hcv hget hdata hm] at hrun
      simp only [Option.some.injEq] at hrun
      subst hrun
      by_cases hc : cv = v
      · subst hc
        simp [jsGet_jsSet_self, hget]
      · simp [jsGet_jsSet_ne _ _ _ _ hc]
    · rw [processLine_drop st line (by simpa using hv) (by simpa using hd)] at hrun
      simp only [Option.some.injEq] at hrun
      subst hrun
      rfl

theorem processLines_name_preserved {lines : List String} :
    ∀ {st st' : ParseState} {v : String},
      stOk st →
      processLines st lines = some st' →
      (∀ l ∈ lines, vendorHeaderFor v l = false) →
      (jsGet st'.result v).map UsbVendor.name =
        (jsGet st.result v).map UsbVendor.name := by
  induction lines with
  | nil =>
    intro st st' v _ hrun _
    simp only [processLines, Option.some.injEq] at hrun
    subst hrun
    rfl
  | cons l ls ih =>
    intro st st' v hok hrun hall
    simp only [processLines] at hrun
    cases hstep : processLine st l with
    | none => rw [hstep] at hrun; simp at hrun
    | some st1 =>
      rw [hstep] at hrun
      obtain ⟨st1', hstep', hok1⟩ := processLine_ok st l hok
      rw [hstep] at hstep'
      simp only [Option.some.injEq] at hstep'
      subst hstep'
      have h1 := processLine_name_preserved hok hstep (hall l (by simp))
      have h2 := ih hok1 hrun (fun l' hl' => hall l' (by simp [hl']))
      rw [h2, h1]


/-- The uniqueness invariant: vendor keys are distinct and every vendor's
device keys are distinct. -/
def stNodup (st : ParseState) : Prop :=
  (st.result.map Prod.fst).Nodup ∧ ∀ p ∈ st.result, (p.2.devices.map Prod.fst).Nodup

theorem processLine_nodup {st st' : ParseState} {line : String}
    (hok : stOk st) (hrun : processLine st line = some st') (h : stNodup st) :
    stNodup st' := by
  by_cases hv : isVendorHeaderB line = true
  · obtain ⟨id, rest, hmatch⟩ := isVendorHeaderB_true hv
    rw [processLine_vendor hmatch] at hrun
    simp only [Option.some.injEq] at hrun
    subst hrun
    refine ⟨nodup_keys_jsSet _ _ h.1, ?_⟩
    intro p hp
    rcases mem_jsSet hp with hp' | hp'
    · subst hp'
      simp [vendorEntry]
    · exact h.2 p hp'
  · by_cases hd : isActiveDeviceLineB st line = true
    · obtain ⟨cv, tail, id, rest, hcv, hdata, hm⟩ := isActiveDeviceLineB_unpack hd
      obtain ⟨vend, hget⟩ := Option.isSome_iff_exists.mp (hok cv hcv)
      rw [processLine_device hcv hget hdata hm] at hrun
      simp only [Option.some.injEq] at hrun
      subst hrun
      refine ⟨nodup_keys_jsSet _ _ h.1, ?_⟩
      intro p hp
      rcases mem_jsSet hp with hp' | hp'
      · subst hp'
        exact nodup_keys_jsSet _ _ (h.2 (cv, vend) (jsGet_mem hget))
      · exact h.2 p hp'
    · rw [processLine_drop st line (by simpa using hv) (by simpa using hd)] at hrun
      simp only [Option.some.injEq] at hrun
      subst hrun
      exact h

theorem processLines_nodup {lines : List String} :
    ∀ {st st' : ParseState},
      stOk st → processLines st lines = some st' → stNodup st → stNodup st' := by
  induction lines with
  | nil =>
    intro st st' _ hrun h
    simp only [processLines, Option.some.injEq] at hrun
    subst hrun
    exact h
  | cons l ls ih =>
    intro st st' hok hrun h
    simp only [processLines] at hrun
    cases hstep : processLine st l with
    | none => rw [hstep] at hrun; simp at hrun
    | some st1 =>
      rw [hstep] at hrun
      obtain ⟨st1', hstep', hok1⟩ := processLine_ok st l hok
      rw [hstep] at hstep'
      simp only [Option.some.injEq] at hstep'
      subst hstep'
      exact ih hok1 hrun (processLine_nodup hok hstep h)

theorem processLines_append (l1 l2 : List String) (st : ParseState) :
    processLines st (l1 ++ l2) =
      (processLines st l1).bind (fun st1 => processLines st1 l2) := by
  induction l1 generalizing st with
  | nil => simp [processLines]
  | cons l ls ih =>
    simp only [List.cons_append, processLines]
    cases processLine st l with
    | some st1 => simp [ih]
    | none => simp


/-- Claim C5: redefinition is last-write-wins. Parse output has exactly
one entry per vendor id and, within each vendor, one entry per device id;
a matched vendor header overwrites any prior entry for that id with a
fresh entry carrying an empty device map (discarding earlier devices); a
matched device line overwrites any prior device entry for its id; and
when a header is the last header for its id in the input, the parsed
vendor's name is that occurrence's name. -/
theorem C5_last_write_wins :
    (∀ (content : String) (d : UsbIdsData), parseUsbIds content = some d →
      (d.map Prod.fst).Nodup ∧ ∀ p ∈ d, (p.2.devices.map Prod.fst).Nodup) ∧
    (∀ (st : ParseState) (line : String) (id rest : List Char),
      matchIdLine line.data = some (id, rest) →
      processLine st line =
        some ⟨jsSet st.result (toLowerStr ⟨id⟩) (vendorEntry id rest),
              some (toLowerStr ⟨id⟩)⟩ ∧
      jsGet (jsSet st.result (toLowerStr ⟨id⟩) (vendorEntry id rest)) (toLowerStr ⟨id⟩) =
        some (vendorEntry id rest) ∧
      (vendorEntry id rest).devices = []) ∧
    (∀ (st : ParseState) (cv : String) (vend : UsbVendor) (line : String)
        (tail id rest : List Char),
      st.currentVendor = some cv → jsGet st.result cv = some vend →
      line.data = '\t' :: tail → matchIdLine tail = some (id, rest) →
      processLine st line =
        some ⟨jsSet st.result cv
          ({ vend with devices := jsSet vend.devices (toLowerStr ⟨id⟩) (deviceEntry id rest) }),
         st.currentVendor⟩ ∧
      jsGet (jsSet vend.devices (toLowerStr ⟨id⟩) (deviceEntry id rest)) (toLowerStr ⟨id⟩) =
        some (deviceEntry id rest)) ∧
    (∀ (content : String) (pre post : List String) (header : String) (id rest : List Char),
      (splitOnNl content.data).map (fun l => (⟨l⟩ : String)) = pre ++ header :: post →
      matchIdLine header.data = some (id, rest) →
      (post.all (fun l => !vendorHeaderFor (toLowerStr ⟨id⟩) l)) = true →
      ∃ d, parseUsbIds content = some d ∧
        ∃ vend, jsGet d (toLowerStr ⟨id⟩) = some vend ∧ vend.name = jsTrim ⟨rest⟩) := by
  refine ⟨?_, ?_, ?_, ?_⟩
  · intro content d hparse
    unfold parseUsbIds at hparse
    obtain ⟨stF, hF, hres⟩ := Option.map_eq_some'.mp hparse
    have hn := processLines_nodup stOk_init hF ⟨by simp, by simp⟩
    rw [← hres]
    exact ⟨hn.1, hn.2⟩
  · intro st line id rest hmatch
    exact ⟨processLine_vendor hmatch, jsGet_jsSet_self _ _ _, rfl⟩
  · intro st cv vend line tail id rest hcv hget hdata hm
    exact ⟨processLine_device hcv hget hdata hm, jsGet_jsSet_self _ _ _⟩
  · intro content pre post header id rest hsplit hmatch hpost
    have hpost' : ∀ l ∈ post, vendorHeaderFor (toLowerStr ⟨id⟩) l = false := by
      intro l hl'
      have := List.all_eq_true.mp hpost l hl'
      simpa using this
    obtain ⟨stF, hFull, hokF⟩ :=
      processLines_ok ((splitOnNl content.data).map (fun l => (⟨l⟩ : String)))
        ⟨[], none⟩ stOk_init
    have hF := hFull
    rw [hsplit, processLines_append] at hF
    cases hpre : processLines ⟨[], none⟩ pre with
    | none => rw [hpre] at hF; simp at hF
    | some st1 =>
      rw [hpre] at hF
      simp only [Option.some_bind] at hF
      obtain ⟨st1', hpre', hok1⟩ := processLines_ok pre ⟨[], none⟩ stOk_init
      rw [hpre] at hpre'
      simp only [Option.some.injEq] at hpre'
      subst hpre'
      simp only [processLines] at hF
      rw [processLine_vendor hmatch] at hF
      have hok2 : stOk ⟨jsSet st1.result (toLowerStr ⟨id⟩) (vendorEntry id rest),
          some (toLowerStr ⟨id⟩)⟩ := by
        intro cv hcv
        simp only [Option.some.injEq] at hcv
        subst hcv
        simp [jsGet_jsSet_self]
      have hname := processLines_name_preserved hok2 hF hpost'
      rw [show (⟨jsSet st1.result (toLowerStr ⟨id⟩) (vendorEntry id rest),
          some (toLowerStr ⟨id⟩)⟩ : ParseState).result =
          jsSet st1.result (toLowerStr ⟨id⟩) (vendorEntry id rest) from rfl] at hname
      rw [jsGet_jsSet_self] at hname
      refine ⟨stF.result, ?_, ?_⟩
      · unfold parseUsbIds
        rw [hFull]
        rfl
      · obtain ⟨vend, hv, hnm⟩ := Option.map_eq_some'.mp hname
        exact ⟨vend, hv, hnm⟩

/-- Witness for C5 at a concrete input that redefines vendor `1234`. -/
theorem C5_witness :
    ((splitOnNl ("1234 First\n\t00a1 D1\n1234 Second\n" : String).data).map
        (fun l => (⟨l⟩ : String)) =
      ["1234 First", "\t00a1 D1"] ++ "1234 Second" :: [""]) ∧
    matchIdLine ("1234 Second" : String).data = some (['1', '2', '3', '4'], "Second".data) ∧
    (([""] : List String).all
      (fun l => !vendorHeaderFor (toLowerStr ⟨['1', '2', '3', '4']⟩) l) = true) ∧
    (∃ d, parseUsbIds "1234 First\n\t00a1 D1\n1234 Second\n" = some d ∧
      ∃ vend, jsGet d (toLowerStr ⟨['1', '2', '3', '4']⟩) = some vend ∧
        vend.name = jsTrim ⟨("Second" : String).data⟩) :=
  ⟨by decide, by decide, by decide,
    C5_last_write_wins.2.2.2 "1234 First\n\t00a1 D1\n1234 Second\n"
      ["1234 First", "\t00a1 D1"] [""] "1234 Second" ['1', '2', '3', '4']
      ("Second".data) (by decide) (by decide) (by decide)⟩

end UsbIds

namespace UsbIds

/-! ## Lowercase-key invariant and case-sensitive lookup (C10) -/


/-- A lowercase hexadecimal digit `[0-9a-f]`, the only characters a parsed
vendor or device id can contain. -/
def isLowerHexChar (c : Char) : Bool :=
  (48 ≤ c.toNat && c.toNat ≤ 57) || (97 ≤ c.toNat && c.toNat ≤ 102)

/-- All characters of `s` are lowercase hex digits. -/
def lowerHexStr (s : String) : Prop := ∀ c ∈ s.data, isLowerHexChar c = true

theorem toNat_ofNat_valid {n : Nat} (h : n.isValidChar) : (Char.ofNat n).toNat = n := by
  unfold Char.ofNat
  rw [dif_pos h]
  rfl

theorem toLower_hex {c : Char} (h : isHexDigitCI c = true) :
    isLowerHexChar (jsToLowerChar c) = true := by
  unfold isHexDigitCI at h
  unfold jsToLowerChar isLowerHexChar
  simp only [Bool.or_eq_true, Bool.and_eq_true, decide_eq_true_eq] at h
  by_cases hc : (65 ≤ c.toNat && c.toNat ≤ 90) = true
  · rw [if_pos hc]
    simp only [Bool.and_eq_true, decide_eq_true_eq] at hc
    have hv : (c.toNat + 32).isValidChar := Or.inl (by omega)
    rw [toNat_ofNat_valid hv]
    simp only [Bool.or_eq_true, Bool.and_eq_true, decide_eq_true_eq]
    omega
  · rw [if_neg hc]
    simp only [Bool.and_eq_true, decide_eq_true_eq, not_and, not_le] at hc
    simp only [Bool.or_eq_true, Bool.and_eq_true, decide_eq_true_eq]
    omega

theorem toLowerStr_lowerHex {id : List Char} (h : ∀ c ∈ id, isHexDigitCI c = true) :
    lowerHexStr (toLowerStr ⟨id⟩) := by
  intro c hc
  unfold toLowerStr at hc
  simp only at hc
  obtain ⟨c0, hc0, hmap⟩ := List.mem_map.mp hc
  rw [← hmap]
  exact toLower_hex (h c0 hc0)

theorem vendorEntry_id_lowerHex {line : String} {id rest : List Char}
    (h : matchIdLine line.data = some (id, rest)) : lowerHexStr (toLowerStr ⟨id⟩) := by
  obtain ⟨c0, c1, c2, c3, s, hl, hid, h0, h1x, h2x, h3x⟩ := matchIdLine_eq_some h
  refine toLowerStr_lowerHex ?_
  intro c hc
  rw [hid] at hc
  simp at hc
  rcases hc with h' | h' | h' | h' <;> subst h' <;> assumption

/-- The lowercase invariant over the parser state. -/
def stLowerHex (st : ParseState) : Prop :=
  ∀ p ∈ st.result, lowerHexStr p.1 ∧ lowerHexStr p.2.vendor ∧
    ∀ q ∈ p.2.devices, lowerHexStr q.1

theorem processLine_lowerHex {st st' : ParseState} {line : String}
    (hok : stOk st) (hrun : processLine st line = some st') (h : stLowerHex st) :
    stLowerHex st' := by
  by_cases hv : isVendorHeaderB line = true
  · obtain ⟨id, rest, hmatch⟩ := isVendorHeaderB_true hv
    rw [processLine_vendor hmatch] at hrun
    simp only [Option.some.injEq] at hrun
    subst hrun
    intro p hp
    rcases mem_jsSet hp with hp' | hp'
    · subst hp'
      refine ⟨vendorEntry_id_lowerHex hmatch, ?_, ?_⟩
      · exact vendorEntry_id_lowerHex hmatch
      · intro q hq
        simp [vendorEntry] at hq
    · exact h p hp'
  · by_cases hd : isActiveDeviceLineB st line = true
    · obtain ⟨cv, tail, id, rest, hcv, hdata, hm⟩ := isActiveDeviceLineB_unpack hd
      obtain ⟨vend, hget⟩ := Option.isSome_iff_exists.mp (hok cv hcv)
      rw [processLine_device hcv hget hdata hm] at hrun
      simp only [Option.some.injEq] at hrun
      subst hrun
      intro p hp
      have hold := h (cv, vend) (jsGet_mem hget)
      rcases mem_jsSet hp with hp' | hp'
      · subst hp'
        refine ⟨hold.1, hold.2.1, ?_⟩
        intro q hq
        rcases mem_jsSet hq with hq' | hq'
        · subst hq'
          have : lowerHexStr (toLowerStr ⟨id⟩) := by
            obtain ⟨c0, c1, c2, c3, s, hl, hid, h0, h1x, h2x, h3x⟩ := matchIdLine_eq_some hm
            refine toLowerStr_lowerHex ?_
            intro c hc
            rw [hid] at hc
            simp at hc
            rcases hc with h' | h' | h' | h' <;> subst h' <;> assumption
          exact this
        · exact hold.2.2 q hq'
      · exact h p hp'
    · rw [processLine_drop st line (by simpa using hv) (by simpa using hd)] at hrun
      simp only [Option.some.injEq] at hrun
      subst hrun
      exact h

theorem processLines_lowerHex {lines : List String} :
    ∀ {st st' : ParseState},
      stOk st → processLines st lines = some st' → stLowerHex st → stLowerHex st' := by
  induction lines with
  | nil =>
    intro st st' _ hrun h
    simp only [processLines, Option.some.injEq] at hrun
    subst hrun
    exact h
  | cons l ls ih =>
    intro st st' hok hrun h
    simp only [processLines] at hrun
    cases hstep : processLine st l with
    | none => rw [hstep] at hrun; simp at hrun
    | some st1 =>
      rw [hstep] at hrun
      obtain ⟨st1', hstep', hok1⟩ := processLine_ok st l hok
      rw [hstep] at hstep'
      simp only [Option.some.injEq] at hstep'
      subst hstep'
      exact ih hok1 hrun (processLine_lowerHex hok hstep h)

theorem parse_lowerHex {content : String} {d : UsbIdsData}
    (h : parseUsbIds content = some d) :
    ∀ p ∈ d, lowerHexStr p.1 ∧ lowerHexStr p.2.vendor ∧
      ∀ q ∈ p.2.devices, lowerHexStr q.1 := by
  unfold parseUsbIds at h
  obtain ⟨stF, hF, hres⟩ := Option.map_eq_some'.mp h
  have := processLines_lowerHex stOk_init hF (by intro p hp; simp at hp)
  rw [← hres]
  exact this

theorem lowerHex_ne_of_upper {s t : String} (hs : lowerHexStr s)
    (ht : ∃ c ∈ t.data, 65 ≤ c.toNat ∧ c.toNat ≤ 90) : s ≠ t := by
  intro he
  subst he
  obtain ⟨c, hc, hlo, hhi⟩ := ht
  have := hs c hc
  unfold isLowerHexChar at this
  simp only [Bool.or_eq_true, Bool.and_eq_true, decide_eq_true_eq] at this
  omega


/-- Claim C10: `getDevice`/`getDevices` resolve ids by exact,
case-sensitive string equality against the lowercased keys the parser
produces: on any parsed dataset, a vendor-id argument containing an
uppercase letter resolves no vendor (`null` / `[]`), and a device-id
argument containing an uppercase letter resolves no device, even when the
entry exists under the lowercase key. -/
theorem C10_lookup_case_sensitive (content : String) (d : UsbIdsData)
    (vendorId deviceId : String) (filt : Option DeviceFilter)
    (hparse : parseUsbIds content = some d) :
    ((∃ c ∈ vendorId.data, 65 ≤ c.toNat ∧ c.toNat ≤ 90) →
      getDeviceInData d vendorId deviceId = none ∧
      getDevicesInData d vendorId filt = []) ∧
    ((∃ c ∈ deviceId.data, 65 ≤ c.toNat ∧ c.toNat ≤ 90) →
      getDeviceInData d vendorId deviceId = none) := by
  have hinv := parse_lowerHex hparse
  constructor
  · intro hup
    have hfil : filterVendors d
        (some (VendorFilter.pred (fun v => v.vendor == vendorId))) = [] := by
      unfold filterVendors
      rw [List.filter_eq_nil_iff]
      intro v hv
      obtain ⟨kv, hkv, hsnd⟩ := List.mem_map.mp hv
      have hlow : lowerHexStr v.vendor := by
        rw [← hsnd]
        exact (hinv kv hkv).2.1
      have hne : v.vendor ≠ vendorId := lowerHex_ne_of_upper hlow hup
      simp [hne]
    constructor
    · unfold getDeviceInData
      rw [hfil]
      rfl
    · unfold getDevicesInData
      rw [hfil]
      rfl
  · intro hup
    unfold getDeviceInData
    cases hh : (filterVendors d
        (some (VendorFilter.pred (fun v => v.vendor == vendorId)))).head? with
    | none => rfl
    | some vendor =>
      have hmem : vendor ∈ filterVendors d
          (some (VendorFilter.pred (fun v => v.vendor == vendorId))) :=
        List.mem_of_mem_head? hh
      unfold filterVendors at hmem
      have hmem' : vendor ∈ d.map Prod.snd := List.mem_of_mem_filter hmem
      obtain ⟨kv, hkv, hsnd⟩ := List.mem_map.mp hmem'
      have hdev : ∀ q ∈ vendor.devices, lowerHexStr q.1 := by
        rw [← hsnd]
        exact (hinv kv hkv).2.2
      have hget : jsGet vendor.devices deviceId = none := by
        apply jsGet_eq_none
        intro q hq
        exact lowerHex_ne_of_upper (hdev q hq) hup
      simp [hget]

/-- A small concrete dataset (the parse of `"05ac Apple\n\t12a8 iPhone"`)
used by witnesses. -/
def appleData : UsbIdsData :=
  [("05ac", { vendor := "05ac", name := "Apple",
              devices := [("12a8", { devid := "12a8", devname := "iPhone" })] })]

/-- Witness for C10: an `05AC` lookup misses although `05ac` exists in
the parsed data. -/
theorem C10_witness :
    (∃ c ∈ ("05AC" : String).data, 65 ≤ c.toNat ∧ c.toNat ≤ 90) ∧
    getDeviceInData appleData "05AC" "12a8" = none ∧
    getDevicesInData appleData "05AC" none = [] :=
  ⟨by decide,
    ((C10_lookup_case_sensitive "05ac Apple\n\t12a8 iPhone" appleData "05AC" "12a8" none
      (by decide)).1 (by decide)).1,
    ((C10_lookup_case_sensitive "05ac Apple\n\t12a8 iPhone" appleData "05AC" "12a8" none
      (by decide)).1 (by decide)).2⟩

end UsbIds

namespace UsbIds

/-! ## Refresh pipeline results (C1, C2) -/


/-- The version record a fetch outcome persisted, if any. -/
def fetchSavedVersion (r : Except String FetchOk) : Option VersionInfo :=
  match r with
  | Except.ok ok => ok.savedVersion
  | Except.error _ => none

/-- Claim C2 (amended): when `shouldUpdate` declines *and the local
fallback JSON file exists*, `fetchUsbIdsData` returns the previous record
and the fallback data unchanged: no parse, no version write, no raw-file
write. (Without the fallback file the code falls through to a fresh
fetch — see the counterexample.) -/
theorem C2_time_gate_unchanged (env : FetchEnv) (vi : VersionInfo) (forceUpdate : Bool)
    (hprev : env.existingVersion = some vi)
    (hgate : shouldUpdate env.existingVersion forceUpdate env.now = false)
    (hfb : env.fallbackExists = true) :
    fetchUsbIdsData env forceUpdate =
      Except.ok { data := env.fallbackData, source := Source.fallback,
                  versionInfo := vi, parseCalled := false,
                  savedVersion := none, savedRaw := none } := by
  unfold fetchUsbIdsData
  rw [if_pos ⟨hgate, hfb⟩, hprev]

/-- The environment of the C2 witness: gate closed, fallback present. -/
def envC2w : FetchEnv :=
  { existingVersion := some viSample, download := none, fallbackExists := true,
    fallbackData := appleData, now := 5 }

/-- Witness for C2 at a concrete closed-gate environment. -/
theorem C2_witness :
    envC2w.existingVersion = some viSample ∧
    shouldUpdate envC2w.existingVersion false envC2w.now = false ∧
    envC2w.fallbackExists = true ∧
    fetchUsbIdsData envC2w false =
      Except.ok { data := envC2w.fallbackData, source := Source.fallback,
                  versionInfo := viSample, parseCalled := false,
                  savedVersion := none, savedRaw := none } :=
  ⟨rfl, by decide, rfl, C2_time_gate_unchanged envC2w viSample false rfl (by decide) rfl⟩

/-- The previous version record of the C2 counterexample (its hash is the
digest of the very content the counterexample downloads). -/
def viC2x : VersionInfo :=
  { fetchTime := 0, fetchTimeFormatted := "0",
    contentHash := generateContentHash "9abc W\n", source := Source.api,
    vendorCount := 1, deviceCount := 0, version := "v1.0.0" }

/-- The environment of the C2 counterexample: the time gate is closed but
the fallback file is missing, and a download is available whose digest
matches the recorded one. -/
def envC2x : FetchEnv :=
  { existingVersion := some viC2x, download := some "9abc W\n",
    fallbackExists := false, fallbackData := [], now := 5 }

/-- Counterexample to C2 as claimed: with the time gate closed
(`shouldUpdate` is false) but no fallback file on disk, `fetchUsbIdsData`
does parse and does persist a new version record instead of returning
`Unchanged(previous)`. -/
theorem C2_counterexample :
    shouldUpdate envC2x.existingVersion false envC2x.now = false ∧
    fetchParseCalled (fetchUsbIdsData envC2x false) = true ∧
    (fetchSavedVersion (fetchUsbIdsData envC2x false)).isSome = true := by
  have hp : parseUsbIds "9abc W\n" =
      some [("9abc", { vendor := "9abc", name := "W", devices := [] })] := by decide
  refine ⟨by decide, ?_, ?_⟩ <;>
    · unfold fetchUsbIdsData fetchRest fetchWithContent fetchParse
      simp [envC2x, viC2x, hp, fetchParseCalled, fetchSavedVersion]

/-- Claim C1 (amended): with a previous record, no force, the time gate
open, a successful download whose digest equals the recorded hash, *and
the fallback file present*, the call returns the previous record and the
fallback data unchanged and does not parse or publish. (Without the
fallback file the code parses and publishes anyway — see the
counterexample.) -/
theorem C1_content_equal_short_circuit (env : FetchEnv) (vi : VersionInfo)
    (content : String)
    (hprev : env.existingVersion = some vi)
    (hdl : env.download = some content)
    (hgate : shouldUpdate env.existingVersion false env.now = true)
    (hhash : generateContentHash content = vi.contentHash)
    (hfb : env.fallbackExists = true) :
    fetchUsbIdsData env false =
      Except.ok { data := env.fallbackData, source := Source.fallback,
                  versionInfo := vi, parseCalled := false,
                  savedVersion := none, savedRaw := none } := by
  unfold fetchUsbIdsData fetchRest fetchWithContent
  rw [hgate, hprev, hdl]
  simp [hhash, hfb]

/-- The previous version record of the C1 witness and counterexample
environments (fetched at epoch 0). -/
def viC1w : VersionInfo :=
  { fetchTime := 0, fetchTimeFormatted := "0",
    contentHash := generateContentHash "1234 Vendor\n", source := Source.api,
    vendorCount := 1, deviceCount := 0, version := "v1.0.0" }

/-- The environment of the C1 witness: gate open, matching digest,
fallback file present. -/
def envC1w : FetchEnv :=
  { existingVersion := some viC1w, download := some "1234 Vendor\n",
    fallbackExists := true, fallbackData := appleData, now := 172800000 }

/-- Witness for C1 at a concrete open-gate, equal-hash environment. -/
theorem C1_witness :
    shouldUpdate envC1w.existingVersion false envC1w.now = true ∧
    envC1w.existingVersion = some viC1w ∧
    generateContentHash "1234 Vendor\n" = viC1w.contentHash ∧
    fetchParseCalled (fetchUsbIdsData envC1w false) = false :=
  ⟨by decide, rfl, rfl, by
    rw [C1_content_equal_short_circuit envC1w viC1w "1234 Vendor\n" rfl rfl (by decide) rfl rfl]
    rfl⟩

/-- The previous version record of the C1 counterexample. -/
def viC1x : VersionInfo :=
  { fetchTime := 0, fetchTimeFormatted := "0",
    contentHash := generateContentHash "5678 V\n", source := Source.api,
    vendorCount := 1, deviceCount := 0, version := "v1.0.0" }

/-- The environment of the C1 counterexample: like the witness, except the
fallback file is missing. -/
def envC1x : FetchEnv :=
  { existingVersion := some viC1x, download := some "5678 V\n",
    fallbackExists := false, fallbackData := [], now := 172800000 }

/-- Counterexample to C1 as claimed: gate open, digest equal to the
previous `contentHash`, but no fallback file — `fetchUsbIdsData` invokes
the parser and publishes a new record anyway. -/
theorem C1_counterexample :
    shouldUpdate envC1x.existingVersion false envC1x.now = true ∧
    envC1x.existingVersion = some viC1x ∧
    generateContentHash "5678 V\n" = viC1x.contentHash ∧
    fetchParseCalled (fetchUsbIdsData envC1x false) = true ∧
    (fetchSavedVersion (fetchUsbIdsData envC1x false)).isSome = true := by
  have hp : parseUsbIds "5678 V\n" =
      some [("5678", { vendor := "5678", name := "V", devices := [] })] := by decide
  refine ⟨by decide, rfl, rfl, ?_, ?_⟩ <;>
    · unfold fetchUsbIdsData fetchRest fetchWithContent fetchParse
      simp [envC1x, viC1x, hp, fetchParseCalled, fetchSavedVersion]

end UsbIds

namespace UsbIds

/-! ## Query engine results (C6, C7) -/


/-- Claim C6: a blank query yields the empty search result, while an
absent filter in `filterVendors`/`filterDevices` yields every vendor /
every device of the vendor, and `getDevices` with an absent filter
returns all devices of the resolved vendor. -/
theorem C6_empty_query_vs_absent_filter :
    (∀ (data : UsbIdsData) (q : String), jsTrim q = "" → searchInData data q = []) ∧
    (∀ data : UsbIdsData, filterVendors data none = data.map Prod.snd) ∧
    (∀ v : UsbVendor, filterDevices v none = v.devices.map Prod.snd) ∧
    (∀ (data : UsbIdsData) (vendorId : String) (v : UsbVendor),
      (filterVendors data
        (some (VendorFilter.pred (fun w => w.vendor == vendorId)))).head? = some v →
      getDevicesInData data vendorId none = v.devices.map Prod.snd) := by
  refine ⟨?_, fun _ => rfl, fun _ => rfl, ?_⟩
  · intro data q hq
    unfold searchInData
    rw [if_pos hq]
  · intro data vendorId v hv
    unfold getDevicesInData
    rw [hv]
    rfl

/-- Witness for C6 with a whitespace-only query over concrete data. -/
theorem C6_witness :
    jsTrim "  " = "" ∧ searchInData appleData "  " = [] :=
  ⟨by decide, C6_empty_query_vs_absent_filter.1 appleData "  " (by decide)⟩

theorem scoredOf_priority (t : String) (v : UsbVendor) (d : UsbDevice) :
    (scoredOf t v d).priority = specScore t v d := by
  unfold scoredOf specScore
  dsimp only
  split_ifs <;> omega

theorem scoredOf_vendor (t : String) (v : UsbVendor) (d : UsbDevice) :
    (scoredOf t v d).vendor = v := rfl

theorem scoredOf_device (t : String) (v : UsbVendor) (d : UsbDevice) :
    (scoredOf t v d).device = d := rfl

theorem mem_searchScored {data : UsbIdsData} {t : String} {r : ScoredResult} :
    r ∈ searchScored data t ↔
      ∃ kv ∈ data, ∃ dkv ∈ kv.2.devices,
        searchMatches t kv.2 dkv.2 = true ∧ r = scoredOf t kv.2 dkv.2 := by
  unfold searchScored
  simp only [List.mem_flatMap]
  constructor
  · rintro ⟨kv, hkv, dkv, hdkv, hif⟩
    split at hif
    next hc => simp only [List.mem_singleton] at hif; exact ⟨kv, hkv, dkv, hdkv, hc, hif⟩
    next => simp at hif
  · rintro ⟨kv, hkv, dkv, hdkv, hc, hr⟩
    refine ⟨kv, hkv, dkv, hdkv, ?_⟩
    rw [if_pos hc]
    simp [hr]


/-- Claim C7: for a non-blank query, `searchInData` returns a pair iff
the lowercased trimmed query substring-matches the device id, device name,
or vendor name/id; every scored entry carries exactly the specified score
(100 exact device id, else 50 substring device id, +30 device name, +10
vendor); and the returned list is sorted by descending score. -/
theorem C7_search_ranking (data : UsbIdsData) (q : String) (hq : ¬(jsTrim q = "")) :
    (∀ (v : UsbVendor) (d : UsbDevice),
      (v, d) ∈ searchInData data q ↔
        ∃ kv ∈ data, kv.2 = v ∧ ∃ dkv ∈ kv.2.devices, dkv.2 = d ∧
          searchMatches (jsTrim (toLowerStr q)) v d = true) ∧
    (∀ r ∈ searchScored data (jsTrim (toLowerStr q)),
      r.priority = specScore (jsTrim (toLowerStr q)) r.vendor r.device) ∧
    (searchInData data q).Pairwise (fun p1 p2 =>
      specScore (jsTrim (toLowerStr q)) p2.1 p2.2 ≤
        specScore (jsTrim (toLowerStr q)) p1.1 p1.2) := by
  have hunfold : searchInData data q =
      ((searchScored data (jsTrim (toLowerStr q))).mergeSort
        (fun a b => decide (b.priority ≤ a.priority))).map
        (fun r => (r.vendor, r.device)) := by
    unfold searchInData
    rw [if_neg hq]
  refine ⟨?_, ?_, ?_⟩
  · intro v d
    rw [hunfold]
    simp only [List.mem_map]
    constructor
    · rintro ⟨r, hr, hf⟩
      rw [List.mem_mergeSort] at hr
      obtain ⟨kv, hkv, dkv, hdkv, hc, hr'⟩ := mem_searchScored.mp hr
      subst hr'
      simp only [scoredOf_vendor, scoredOf_device, Prod.mk.injEq] at hf
      obtain ⟨hfv, hfd⟩ := hf
      subst hfv
      subst hfd
      exact ⟨kv, hkv, rfl, dkv, hdkv, rfl, hc⟩
    · rintro ⟨kv, hkv, hv, dkv, hdkv, hd, hc⟩
      subst hv
      subst hd
      refine ⟨scoredOf (jsTrim (toLowerStr q)) kv.2 dkv.2, ?_, rfl⟩
      rw [List.mem_mergeSort]
      exact mem_searchScored.mpr ⟨kv, hkv, dkv, hdkv, hc, rfl⟩
  · intro r hr
    obtain ⟨kv, hkv, dkv, hdkv, hc, hr'⟩ := mem_searchScored.mp hr
    subst hr'
    rw [scoredOf_priority, scoredOf_vendor, scoredOf_device]
  · rw [hunfold, List.pairwise_map]
    refine List.Pairwise.imp_of_mem ?_
      (List.sorted_mergeSort
        (fun a b c => by
          simp only [decide_eq_true_eq]
          exact fun h1 h2 => Nat.le_trans h2 h1)
        (fun a b => by
          simp only [Bool.or_eq_true, decide_eq_true_eq]
          exact Nat.le_total b.priority a.priority)
        (searchScored data (jsTrim (toLowerStr q))))
    intro a b ha hb hab
    rw [List.mem_mergeSort] at ha hb
    obtain ⟨kva, hkva, dkva, hdkva, hca, hra⟩ := mem_searchScored.mp ha
    obtain ⟨kvb, hkvb, dkvb, hdkvb, hcb, hrb⟩ := mem_searchScored.mp hb
    subst hra
    subst hrb
    simp only [scoredOf_vendor, scoredOf_device]
    simp only [decide_eq_true_eq] at hab
    rw [scoredOf_priority, scoredOf_priority] at hab
    exact hab

/-- The vendor entry of the witness dataset. -/
def appleVendor : UsbVendor :=
  { vendor := "05ac", name := "Apple",
    devices := [("12a8", { devid := "12a8", devname := "iPhone" })] }

/-- The device entry of the witness dataset. -/
def appleDevice : UsbDevice := { devid := "12a8", devname := "iPhone" }

/-- Witness for C7: the inclusion criterion instantiated at a concrete
dataset and query. -/
theorem C7_witness :
    ¬(jsTrim "12a8" = "") ∧
    ((appleVendor, appleDevice) ∈ searchInData appleData "12a8" ↔
      ∃ kv ∈ appleData, kv.2 = appleVendor ∧
        ∃ dkv ∈ kv.2.devices, dkv.2 = appleDevice ∧
          searchMatches (jsTrim (toLowerStr "12a8")) appleVendor appleDevice = true) :=
  ⟨by decide, (C7_search_ranking appleData "12a8" (by decide)).1 appleVendor appleDevice⟩

end UsbIds
